import Mathlib

/-
Verification of the mnist-neural-net sources.

The repository contains two implementations of the same feed-forward
neural-network training engine:
  * `Network.hpp` — the templated form (layers parameterised over the
    mini-batch size, shapes, activation and cost functions);
  * `main4.cpp`   — the fixed, non-templated form.
This file gives a shallow embedding of the parts of both needed to settle
the claims: the 1-D/3-D coordinate helpers, the max-pooling forward and
backward lookups, fully-connected `endBatch`, the output-cost evaluation,
layer wiring checks, the `UNREACHABLE`/`DO_NOT_USE` contract-violation
macros, convolutional bias storage, weight initialisation, and the full
per-sample backward pass over a heterogeneous layer chain.

Machine arithmetic: the C++ code computes indices in `unsigned` (32-bit,
wrap-around), embedded as `Nat` with explicit `% U32` where a product or
sum can exceed 32 bits.  `float` quantities are embedded as `ℚ`: every
float operation the settled claims depend on (comparison, `std::max`,
the algebraic update formulas) is exact on the represented values, and
implementation-defined transcendental functions (`exp`, `sqrt`, the
normal-distribution sampler) are taken as function parameters, exactly as
the C++ templates take the activation and cost functions as parameters.
-/

/-- Modulus of the C++ `unsigned` type (32 bits): arithmetic wraps mod `2^32`. -/
def U32 : Nat := 4294967296

/-- Helper `getX` from `Network.hpp`: `index % dimX`. -/
def getX (index dimX : Nat) : Nat := index % dimX

/-- Helper `getY` from `Network.hpp`: `(index / dimX) % dimY`. -/
def getY (index dimX dimY : Nat) : Nat := (index / dimX) % dimY

/-- Helper `getZ` from `Network.hpp`: `index / (dimX * dimY)`; the product
`dimX * dimY` is computed in `unsigned` arithmetic, hence the `% U32`. -/
def getZ (index dimX dimY : Nat) : Nat := index / (dimX * dimY % U32)

/-- Helper `getIndex` from `Network.hpp`:
`((dimX * dimY) * z) + (dimX * y) + x`, every operation in `unsigned`
arithmetic.  `main4.cpp` inlines the identical expression at its use
sites (`ConvNeuron::backPropogate`, `MaxPoolLayer::getBwdError`). -/
def getIndex (x y z dimX dimY : Nat) : Nat :=
  (((dimX * dimY % U32) * z % U32 + dimX * y % U32) % U32 + x) % U32

/-- Value of `std::numeric_limits<float>::min()`: the smallest positive
normalised single-precision value, `2^-126`.  (Note: this is a small
positive number, not the most negative float.) -/
def fltMin : ℚ := 1 / 2 ^ 126

/-- Pool-window traversal order of `MaxPoolLayer::feedForward`: `a` over
`[0, poolX)` in the outer loop, `b` over `[0, poolY)` in the inner loop. -/
def poolWindow (poolX poolY : Nat) : List (Nat × Nat) :=
  (List.range poolX).flatMap fun a => (List.range poolY).map fun b => (a, b)

/-- The activation `MaxPoolLayer::feedForward` leaves in `activations[mb]`
of output neuron `(x, y, z)`.  Faithful to the loop body in both
`Network.hpp` (lines 826-845) and `main4.cpp` (lines 749-769):
`weightedInput` is initialised to `std::numeric_limits<float>::min()` and
never reassigned, each iteration computes
`max = std::max(weightedInput, input)` and overwrites the stored
activation with it.  `inputAct nX nY` is the predecessor activation at
`(nX, nY, z)` for the slot being processed; `old` is the value stored in
the activation slot before the loop runs. -/
def maxPoolActivation (poolX poolY : Nat) (inputAct : Nat → Nat → ℚ)
    (x y : Nat) (old : ℚ) : ℚ :=
  (poolWindow poolX poolY).foldl
    (fun _cur ab => max fltMin (inputAct (x * poolX + ab.1) (y * poolY + ab.2))) old

/-- The true maximum of the pool window, as the specification describes it:
fold of `max` over the window starting from the first element. -/
def poolWindowMax (poolX poolY : Nat) (inputAct : Nat → Nat → ℚ) (x y : Nat) : ℚ :=
  ((poolWindow poolX poolY).map fun ab =>
    inputAct (x * poolX + ab.1) (y * poolY + ab.2)).foldl max
      (inputAct (x * poolX) (y * poolY))

/-- Weight update of `FullyConnectedNeuron::endBatch` for one weight `i`
(`Network.hpp` lines 223-237, identically `main4.cpp` lines 284-298):
`weightDelta` accumulates `activations[j] * errors[j]` over the mini-batch
slots, is scaled by `learningRate / mbSize`, then the weight is multiplied
by the regularisation factor and the delta subtracted. -/
def fcEndBatchWeight (learningRate lambda : ℚ) (mbSize numTrainingImages : Nat)
    (actI errJ : Nat → ℚ) (w : ℚ) : ℚ :=
  let weightDelta :=
    ((List.range mbSize).foldl (fun acc j => acc + actI j * errJ j) 0)
      * (learningRate / (mbSize : ℚ))
  let reg : ℚ := 1 - learningRate * (lambda / (numTrainingImages : ℚ))
  w * reg - weightDelta

/-- Bias update of `FullyConnectedNeuron::endBatch` (`Network.hpp` lines
240-245): the errors are accumulated over the mini-batch slots, scaled by
`learningRate / mbSize` and subtracted; no regularisation factor. -/
def fcEndBatchBias (learningRate : ℚ) (mbSize : Nat) (errJ : Nat → ℚ) (b : ℚ) : ℚ :=
  let biasDelta :=
    ((List.range mbSize).foldl (fun acc j => acc + errJ j) 0)
      * (learningRate / (mbSize : ℚ))
  b - biasDelta

/-- `QuadraticCost::compute`: `0.5 * pow(abs(activation - label), 2)`. -/
def quadCost (activation label : ℚ) : ℚ := (1 / 2) * |activation - label| ^ 2

/-- Layer-level `computeOutputCost` (`SoftMaxLayer::computeOutputCost`,
`Network.hpp` lines 497-503, identically `FullyConnectedLayer` in
`main4.cpp` lines 431-437): `outputCost` is initialised to `0.0f`, the
loop calls each neuron's `computeOutputCost` and discards the returned
value, and `outputCost` is returned. -/
def computeOutputCost (costFn : ℚ → ℚ → ℚ) (acts : List ℚ) (label : ℚ) : ℚ :=
  acts.foldl (fun outputCost a =>
    let _cost := costFn a label
    outputCost) 0

/-- Per-neuron cost sum the specification describes: the configured cost
function applied to each output activation, summed over the layer. -/
def perSampleCostSum (costFn : ℚ → ℚ → ℚ) (acts : List ℚ) (label : ℚ) : ℚ :=
  (acts.map fun a => costFn a label).sum

/-- `SoftMaxNeuron::sumSquaredWeights`: accumulates `pow(weight, 2)`. -/
def sumSquaredWeights (weights : List ℚ) : ℚ :=
  weights.foldl (fun result w => result + w ^ 2) 0

/-- `MaxPoolLayer::getBwdError(x, y, z, mb)` from `Network.hpp` (lines
850-862): the coordinates are downsampled to `(x/poolX, y/poolY, z)`;
if the successor is 1-D it is queried at the flattened downsampled index,
otherwise at the downsampled 3-D coordinate.  `dimX, dimY` are this
pooling layer's output grid dimensions; `succBwd1`/`succBwd3` are the
successor's two `getBwdError` overloads. -/
def maxPoolGetBwdError (poolX poolY dimX dimY succNumDims : Nat)
    (succBwd1 : Nat → ℚ) (succBwd3 : Nat → Nat → Nat → ℚ) (x y z : Nat) : ℚ :=
  let nX := x / poolX
  let nY := y / poolY
  let nZ := z
  let index := getIndex nX nY nZ dimX dimY
  if succNumDims = 1 then succBwd1 index else succBwd3 nX nY nZ

/-- `MaxPoolLayer::getBwdError(x, y, z, mbIndex)` from `main4.cpp` (lines
774-783): the downsampled `nX, nY, nZ` are computed, the 1-D branch
queries the flattened downsampled index
`(shape0*shape1*nZ) + (shape0*nY) + nX` (the same expression as
`getIndex`), but the 3-D branch queries the successor at the original
`(x, y, z)`. -/
def maxPoolGetBwdErrorM4 (poolX poolY dimX dimY succNumDims : Nat)
    (succBwd1 : Nat → ℚ) (succBwd3 : Nat → Nat → Nat → ℚ) (x y z : Nat) : ℚ :=
  let nX := x / poolX
  let nY := y / poolY
  let nZ := z
  if succNumDims = 1 then succBwd1 (getIndex nX nY nZ dimX dimY) else succBwd3 x y z

/-- Build configuration: the `assert` macro and the `UNREACHABLE` macro of
`Network.hpp` (lines 23-27) change meaning under `NDEBUG`. -/
inductive BuildMode where
  | debug : BuildMode
  | release : BuildMode
deriving DecidableEq

/-- The C `assert` macro: in a debug build a false condition aborts the
process (modelled as `none`); under `NDEBUG` the check is compiled out
and execution continues. -/
def assertCheck (cond : Bool) : BuildMode → Option Unit
  | .debug => if cond then some () else none
  | .release => some ()

/-- `ConvLayer::setInputs` (`Network.hpp` lines 750-756): asserts that the
predecessor's `size()` equals the declared input volume
`inputX * inputY * inputZ` before storing the pointer. -/
def convSetInputs (predSize inputX inputY inputZ : Nat) (m : BuildMode) : Option Unit :=
  assertCheck (predSize == inputX * inputY * inputZ) m

/-- `MaxPoolLayer::setInputs` (`Network.hpp` lines 870-874): asserts that
the predecessor's `size()` equals `poolX * poolY * neurons.num_elements()`. -/
def maxPoolSetInputs (predSize poolX poolY numNeurons : Nat) (m : BuildMode) : Option Unit :=
  assertCheck (predSize == poolX * poolY * numNeurons) m

/-- `FullyConnectedLayer::setInputs` (`Network.hpp` lines 279-284): stores
the predecessor pointer into the layer and its neurons; it performs no
comparison of the predecessor's `size()` against the declared `prevSize`
template argument, so it always completes. -/
def fcSetInputs (prevSize predSize : Nat) (_m : BuildMode) : Option Unit := some ()

/-- `SoftMaxLayer::setInputs` (`Network.hpp` lines 422-427): likewise
stores the pointer with no size validation. -/
def softMaxSetInputs (prevSize predSize : Nat) (_m : BuildMode) : Option Unit := some ()

/-- Outcome of invoking an operation a layer variant does not support. -/
inductive CallResult where
  | halted : CallResult
  | undefBehaviour : CallResult
  | silentReturn : CallResult
deriving DecidableEq

/-- The `UNREACHABLE()` macro of `Network.hpp` (lines 23-27):
`__builtin_trap()` (fatal) when `NDEBUG` is not defined,
`__builtin_unreachable()` (undefined behaviour) when it is. -/
def unreachableCall : BuildMode → CallResult
  | .debug => .halted
  | .release => .undefBehaviour

/-- The `DO_NOT_USE` macro of `main4.cpp` (line 16):
`assert(0 && "invalid call")` aborts in a debug build; under `NDEBUG` the
assert vanishes and the member function continues, returning its default
value (`0.0f`, a fresh neuron, ...). -/
def doNotUseCall : BuildMode → CallResult
  | .debug => .halted
  | .release => .silentReturn

/-- `InputLayer::feedForward` (`Network.hpp` line 138): body is exactly
`UNREACHABLE()`. -/
def inputLayerFeedForward : BuildMode → CallResult := unreachableCall

/-- `InputLayer::backPropogate` (`Network.hpp` line 141): `UNREACHABLE()`. -/
def inputLayerBackPropogate : BuildMode → CallResult := unreachableCall

/-- `InputLayer::endBatch` (`Network.hpp` line 144): `UNREACHABLE()`. -/
def inputLayerEndBatch : BuildMode → CallResult := unreachableCall

/-- `InputLayer::getBwdError` (`Network.hpp` line 153): `UNREACHABLE()`. -/
def inputLayerGetBwdError : BuildMode → CallResult := unreachableCall

/-- `SoftMaxLayer::setOutputs` (`Network.hpp` line 429): `UNREACHABLE()` —
the softmax output layer has no successor. -/
def softMaxSetOutputs : BuildMode → CallResult := unreachableCall

/-- `InputLayer::feedForward` (`main4.cpp` line 188): body is `DO_NOT_USE`. -/
def inputLayerFeedForwardM4 : BuildMode → CallResult := doNotUseCall

/-- `InputLayer::backPropogate` (`main4.cpp` line 191): `DO_NOT_USE`. -/
def inputLayerBackPropogateM4 : BuildMode → CallResult := doNotUseCall

/-- `InputLayer::getBwdError` (`main4.cpp` line 218): `DO_NOT_USE` followed
by `return 0.0f`. -/
def inputLayerGetBwdErrorM4 : BuildMode → CallResult := doNotUseCall

/-- Extent of `ConvLayer`'s bias array in `Network.hpp` (line 625): the
constructor initialises `bias(boost::extents[numFMs])`. -/
def convBiasExtent (numFMs : Nat) : Nat := numFMs

/-- Extent of `ConvLayer`'s bias member in `main4.cpp` (lines 519, 528-536):
`bias` is declared `boost::multi_array<float, 1>` but is absent from the
constructor's initialiser list, so it is default-constructed with zero
elements (boost default-constructs a multi_array with all extents 0). -/
def convBiasExtentM4 (numFeatureMaps : Nat) : Nat := 0

/-- Bias indices written by `ConvLayer::initialiseDefaultWeights`
(`Network.hpp` lines 647-656, `main4.cpp` lines 552-562): `bias[fm]` for
each feature map `fm` in `[0, numFMs)`. -/
def convInitBiasWrites (numFMs : Nat) : List Nat := List.range numFMs

/-- One step of an abstract pseudo-random engine: `dist st = (value, st')`
models one call of `std::normal_distribution` on an engine in state `st`.
The engine's seeding and the distribution's algorithm are
implementation-defined, so, as with the activation-function template
parameters, the draw is a parameter of the embedding; seeding an engine
with `s` puts it in state `s`. -/
def engineNext (dist : Nat → ℚ × Nat) (st : Nat) : Nat := (dist st).2

/-- The weight-drawing loop of `FullyConnectedNeuron::initialiseDefaultWeights`
(`Network.hpp` lines 197-201): `numInputs` draws, each divided by
`std::sqrt(inputs->size())` (the `scale` parameter), pushed in order,
threading the engine state. -/
def drawWeights (dist : Nat → ℚ × Nat) (scale : ℚ) : Nat → Nat → List ℚ × Nat
  | 0, st => ([], st)
  | n + 1, st =>
    let (v, st') := dist st
    let (ws, st'') := drawWeights dist scale n st'
    (v / scale :: ws, st'')

/-- `FullyConnectedNeuron::initialiseDefaultWeights` (`Network.hpp` lines
193-203): draws the weights then one unscaled bias from the engine passed
in by the network, returning the advanced engine state. -/
def fcNeuronInitHpp (dist : Nat → ℚ × Nat) (scale : ℚ) (numInputs st : Nat) :
    (List ℚ × ℚ) × Nat :=
  let (ws, st') := drawWeights dist scale numInputs st
  let (b, st'') := dist st'
  ((ws, b), st'')

/-- `FullyConnectedLayer::initialiseDefaultWeights` (`Network.hpp` lines
293-297): initialises the neurons in order, threading the single engine
through all of them. -/
def fcLayerInitHpp (dist : Nat → ℚ × Nat) (scale : ℚ) (numInputs : Nat) :
    Nat → Nat → List (List ℚ × ℚ) × Nat
  | 0, st => ([], st)
  | k + 1, st =>
    let (nw, st') := fcNeuronInitHpp dist scale numInputs st
    let (rest, st'') := fcLayerInitHpp dist scale numInputs k st'
    (nw :: rest, st'')

/-- Weight initialisation of a whole chain of fully-connected layers as
`Network::Network` performs it (`Network.hpp` lines 918-933): the single
`std::default_random_engine generator(params.seed)` is passed to
`layers[i]->initialiseDefaultWeights(generator)` in chain order, each
layer continuing from the state the previous layer left.  The topology is
the list of `(layerSize, numInputs)` pairs; `sqrtFn n` models
`std::sqrt(n)`. -/
def networkInitHpp (dist : Nat → ℚ × Nat) (sqrtFn : Nat → ℚ) :
    List (Nat × Nat) → Nat → List (List (List ℚ × ℚ)) × Nat
  | [], st => ([], st)
  | (sz, nin) :: rest, st =>
    let (lw, st') := fcLayerInitHpp dist (sqrtFn nin) nin sz st
    let (lws, st'') := networkInitHpp dist sqrtFn rest st'
    (lw :: lws, st'')

/-- Number of engine draws a `(layerSize, numInputs)` topology consumes:
each neuron draws its `numInputs` weights plus one bias. -/
def networkInitDraws (topo : List (Nat × Nat)) : Nat :=
  (topo.map fun p => p.1 * (p.2 + 1)).sum

/-- `FullyConnectedNeuron::initialiseDefaultWeights` from `main4.cpp`
(lines 252-263): the engine is a function-local
`static std::default_random_engine generator(std::time(nullptr))`, so the
draws of the first neuron initialised start from the state the wall clock
seeds, not from any configurable seed.  The body is otherwise the same
weight/bias draw loop. -/
def fcNeuronInitM4 (dist : Nat → ℚ × Nat) (scale : ℚ) (numInputs clock : Nat) :
    (List ℚ × ℚ) × Nat :=
  let st := clock
  let (ws, st') := drawWeights dist scale numInputs st
  let (b, st'') := dist st'
  ((ws, b), st'')

/-- Shapes and strategy parameters of one layer of the chain, mirroring the
template/constructor arguments in `Network.hpp`: `fc` and `softmax` carry
their declared size and previous size plus their function parameters,
`conv` its kernel and input-volume shape and feature-map count, `pool`
its window and input-volume shape. -/
inductive LayerCfg where
  | fc (size prevSize : Nat) (actFn actDeriv : ℚ → ℚ)
  | softmax (size prevSize : Nat) (costFn : ℚ → ℚ → ℚ) (costDelta : ℚ → ℚ → ℚ → ℚ)
  | conv (kernelX kernelY kernelZ inputX inputY inputZ numFMs : Nat)
      (actFn actDeriv : ℚ → ℚ)
  | pool (poolX poolY inputX inputY inputZ : Nat)

/-- `getNumDims()` of each layer kind: fully-connected and softmax layers
are 1-D, convolutional and pooling layers 3-D. -/
def LayerCfg.numDims : LayerCfg → Nat
  | .fc .. => 1
  | .softmax .. => 1
  | .conv .. => 3
  | .pool .. => 3

/-- First output-grid dimension of a layer (`getDim(0)`; for 1-D layers the
neuron count). -/
def LayerCfg.outDimX : LayerCfg → Nat
  | .fc sz .. => sz
  | .softmax sz .. => sz
  | .conv kx _ _ iX .. => iX - kx + 1
  | .pool pX _ iX .. => iX / pX

/-- Second output-grid dimension of a layer (1 for 1-D layers). -/
def LayerCfg.outDimY : LayerCfg → Nat
  | .fc .. => 1
  | .softmax .. => 1
  | .conv _ ky _ _ iY .. => iY - ky + 1
  | .pool _ pY _ iY .. => iY / pY

/-- Depth of a layer's output grid (feature maps for conv, input depth for
pool, 1 for 1-D layers). -/
def LayerCfg.outDimZ : LayerCfg → Nat
  | .fc .. => 1
  | .softmax .. => 1
  | .conv _ _ _ _ _ _ nFM _ _ => nFM
  | .pool _ _ _ _ iZ => iZ

/-- `size()` of each layer kind: the total neuron count. -/
def LayerCfg.size (cfg : LayerCfg) : Nat :=
  cfg.outDimX * cfg.outDimY * cfg.outDimZ

/-- The whole chain's mutable numeric state, as total functions.  Every
neuron is addressed by the pair (layer index, flat neuron code); the flat
code of a 3-D neuron `(x, y, z)` of a conv or pool layer is
`getIndex x y z outDimX outDimY`, which is exactly the index the source's
1-D `getNeuron(index)` overloads invert through `getX`/`getY`/`getZ`, so
a 1-D read of neuron `i` of any predecessor reads flat code `i`.  Fields:
`inputAct i m` — the input layer's activation of pixel `i` at slot `m`
(pixel `i` sits at grid position `(i % imageX, i / imageX)`, so the 3-D
read of `(x, y, 0)` is flat code `x + imageX * y`); `wIn`, `act`, `err` —
each layer's per-neuron scratch arrays, indexed (layer, neuron, slot);
`bwd` — each layer's backward-error buffer for its predecessor, indexed
(layer, predecessor neuron flat code, slot), a conv layer's 3-D buffer
entry `(x, y, z)` sitting at flat code `getIndex x y z inputX inputY`;
`wt` — each layer's weights, a fully-connected neuron `n`'s weight `i`
at flat code `n * predSize + i`, a conv kernel weight `[fm][a][b][c]` at
flat code `((fm * kernelX + a) * kernelY + b) * kernelZ + c`; `bias` —
per-neuron for fc/softmax, per-feature-map for conv. -/
structure NetSt where
  inputAct : Nat → Nat → ℚ
  wIn : Nat → Nat → Nat → ℚ
  act : Nat → Nat → Nat → ℚ
  err : Nat → Nat → Nat → ℚ
  bwd : Nat → Nat → Nat → ℚ
  wt : Nat → Nat → ℚ
  bias : Nat → Nat → ℚ

/-- Write pattern shared by every per-slot store of the source: layer `l`
overwrites positions `n < bound` of slot `mb` and nothing else. -/
def maskW (old : Nat → Nat → Nat → ℚ) (l mb bound : Nat) (v : Nat → ℚ) :
    Nat → Nat → Nat → ℚ :=
  fun l' n m => if l' = l ∧ n < bound ∧ m = mb then v n else old l' n m

/-- Write pattern of `InputLayer::setImage`: pixel `i < bound` of slot `mb`. -/
def maskW2 (old : Nat → Nat → ℚ) (mb bound : Nat) (v : Nat → ℚ) :
    Nat → Nat → ℚ :=
  fun i m => if i < bound ∧ m = mb then v i else old i m

/-- Actual `size()` of the layer feeding layer `l`: the input layer for
`l = 0`, otherwise layer `l - 1`. -/
def predSizeOf (cfgs : List LayerCfg) (inputSize l : Nat) : Nat :=
  if l = 0 then inputSize else ((cfgs.get? (l - 1)).map LayerCfg.size).getD 0

/-- Activation of the layer feeding layer `l`, read through the 1-D
`getNeuron(index)` interface: every layer kind's 1-D `getNeuron` returns
the neuron whose flat code is the index (for conv/pool via
`getX`/`getY`/`getZ`, which invert the flat code). -/
def predAct1 (s : NetSt) (l i mb : Nat) : ℚ :=
  if l = 0 then s.inputAct i mb else s.act (l - 1) i mb

/-- Activation of the layer feeding layer `l`, read through the 3-D
`getNeuron(x, y, z)` interface.  For the input layer this is pixel
`x + imageX * y` (depth 1); for a 3-D predecessor the neuron at flat code
`getIndex x y z dimX dimY` of that layer's output grid.  A 1-D
predecessor's 3-D `getNeuron` is `UNREACHABLE()` in the source (conv and
pool layers never follow a fully-connected layer); the embedding returns
the same formula built from the 1-D layer's dims, which is never consumed
for the chains the source constructs. -/
def predAct3 (cfgs : List LayerCfg) (imageX : Nat) (s : NetSt)
    (l x y z mb : Nat) : ℚ :=
  if l = 0 then s.inputAct (x + imageX * y) mb
  else match cfgs.get? (l - 1) with
    | some cfg => s.act (l - 1) (getIndex x y z cfg.outDimX cfg.outDimY) mb
    | none => 0

/-- Weighted input of fully-connected (and softmax) neuron `n` of layer
`l` (`FullyConnectedNeuron::feedForward` lines 205-213 /
`SoftMaxNeuron::feedForward` lines 367-376 of `Network.hpp`): sum of
predecessor activation times weight over the actual predecessor size,
plus the neuron's bias. -/
def fcWeightedInput (s : NetSt) (l prevSize n mb : Nat) : ℚ :=
  ((List.range prevSize).foldl
    (fun acc i => acc + predAct1 s l i mb * s.wt l (n * prevSize + i)) 0)
    + s.bias l n

/-- `FullyConnectedLayer::feedForward` (`Network.hpp` lines 299-303): every
neuron stores its weighted input and its activation at slot `mb`. -/
def fcFeedForward (actFn : ℚ → ℚ) (l size prevSize mb : Nat) (s : NetSt) : NetSt :=
  { s with
    wIn := maskW s.wIn l mb size fun n => fcWeightedInput s l prevSize n mb
    act := maskW s.act l mb size fun n => actFn (fcWeightedInput s l prevSize n mb) }

/-- `SoftMaxLayer::feedForward` (`Network.hpp` lines 439-451): first loop
stores every neuron's weighted input and accumulates the sum of
exponentials, second loop stores the normalised activations. -/
def softmaxFeedForward (expFn : ℚ → ℚ) (l size prevSize mb : Nat) (s : NetSt) : NetSt :=
  let z := fun n => fcWeightedInput s l prevSize n mb
  let sum := (List.range size).foldl (fun acc n => acc + expFn (z n)) 0
  { s with
    wIn := maskW s.wIn l mb size z
    act := maskW s.act l mb size fun n => expFn (z n) / sum }

/-- Weighted input of conv neuron `(x, y)` of feature map `fm`
(`ConvNeuron::feedForward`, `Network.hpp` lines 555-575): the receptive
field is convolved against the feature map's kernel and the feature-map
bias added. -/
def convWeightedInput (cfgs : List LayerCfg) (imageX : Nat) (s : NetSt)
    (l kx ky kz fm x y mb : Nat) : ℚ :=
  ((List.range kx).foldl (fun acc a =>
    (List.range ky).foldl (fun acc2 b =>
      (List.range kz).foldl (fun acc3 c =>
        acc3 + predAct3 cfgs imageX s l (x + a) (y + b) c mb
          * s.wt l (((fm * kx + a) * ky + b) * kz + c)) acc2) acc) 0)
    + s.bias l fm

/-- `ConvLayer::feedForward` (`Network.hpp` lines 659-667): every neuron of
every feature map stores its weighted input and activation at slot `mb`. -/
def convFeedForward (actFn : ℚ → ℚ) (cfgs : List LayerCfg) (imageX : Nat)
    (l kx ky kz iX iY nFM mb : Nat) (s : NetSt) : NetSt :=
  let dimX := iX - kx + 1
  let dimY := iY - ky + 1
  let val := fun n =>
    convWeightedInput cfgs imageX s l kx ky kz
      (getZ n dimX dimY) (getX n dimX) (getY n dimX dimY) mb
  { s with
    wIn := maskW s.wIn l mb (dimX * dimY * nFM) val
    act := maskW s.act l mb (dimX * dimY * nFM) fun n => actFn (val n) }

/-- `MaxPoolLayer::feedForward` (`Network.hpp` lines 826-845): every output
neuron's activation at slot `mb` is overwritten by the (buggy, see
`maxPoolActivation`) pool-window loop; no weighted input is stored. -/
def poolFeedForward (cfgs : List LayerCfg) (imageX : Nat)
    (l pX pY iX iY iZ mb : Nat) (s : NetSt) : NetSt :=
  let dimX := iX / pX
  let dimY := iY / pY
  let val := fun n =>
    maxPoolActivation pX pY
      (fun nX nY => predAct3 cfgs imageX s l nX nY (getZ n dimX dimY) mb)
      (getX n dimX) (getY n dimX dimY) (s.act l n mb)
  { s with act := maskW s.act l mb (dimX * dimY * iZ) val }

/-- `SoftMaxNeuron::computeOutputError` over the layer (`Network.hpp` lines
380-384, 491-495): every output neuron's error at slot `mb` becomes
`costDelta(weightedInput, activation, y)` with `y` the one-hot target. -/
def softmaxComputeOutputError (costDelta : ℚ → ℚ → ℚ → ℚ) (l size label mb : Nat)
    (s : NetSt) : NetSt :=
  { s with
    err := maskW s.err l mb size fun n =>
      costDelta (s.wIn l n mb) (s.act l n mb) (if label = n then 1 else 0) }

/-- `calcBwdError` of a fully-connected or softmax layer (`Network.hpp`
lines 306-314, 454-462): for every predecessor neuron `i`, the buffer row
of slot `mb` receives the weight-error sum over this layer's neurons. -/
def fcCalcBwdError (l size prevSize mb : Nat) (s : NetSt) : NetSt :=
  { s with
    bwd := maskW s.bwd l mb prevSize fun i =>
      (List.range size).foldl
        (fun acc n => acc + s.wt l (n * prevSize + i) * s.err l n mb) 0 }

/-- Value of `layers[l+1]->getBwdError(i, mb)` as a fully-connected neuron
of layer `l` requests it (`FullyConnectedNeuron::backPropogate` line 218):
fully-connected and softmax successors serve it from their buffer; the
1-D `getBwdError` of conv and pool layers is `UNREACHABLE()` in the
source (no fully-connected layer precedes them), embedded as `0`. -/
def succBwd1 (cfgs : List LayerCfg) (s : NetSt) (l i mb : Nat) : ℚ :=
  match cfgs.get? (l + 1) with
  | some (.fc ..) => s.bwd (l + 1) i mb
  | some (.softmax ..) => s.bwd (l + 1) i mb
  | _ => 0

/-- `FullyConnectedLayer::backPropogate` (`Network.hpp` lines 215-221,
317-321): every neuron's error at slot `mb` becomes the successor's
backward-error component times the activation derivative of the stored
weighted input. -/
def fcBackPropogate (actDeriv : ℚ → ℚ) (cfgs : List LayerCfg)
    (l size mb : Nat) (s : NetSt) : NetSt :=
  { s with
    err := maskW s.err l mb size fun n =>
      succBwd1 cfgs s l n mb * actDeriv (s.wIn l n mb) }

/-- Value of `getBwdError(x, y, z, mb)` of the layer at index `l`, whose
configuration suffix (from `l` on) is the first argument.  A conv layer
serves it from its buffer (flat code over its input volume); a pool layer
forwards it to its own successor at the downsampled coordinate
(`Network.hpp` lines 850-862), recursively when that successor is again a
pool layer; the 3-D `getBwdError` of 1-D layers is `UNREACHABLE()`,
embedded as `0`. -/
def layerBwd3 : List LayerCfg → Nat → NetSt → Nat → Nat → Nat → Nat → ℚ
  | [], _, _, _, _, _, _ => 0
  | .conv _ _ _ iX iY _ _ _ _ :: _, l, s, x, y, z, mb =>
      s.bwd l (getIndex x y z iX iY) mb
  | .pool pX pY iX iY _ :: rest, l, s, x, y, z, mb =>
      let nX := x / pX
      let nY := y / pY
      let nZ := z
      let dimX := iX / pX
      let dimY := iY / pY
      match rest with
      | [] => 0
      | next :: _ =>
          if next.numDims = 1 then s.bwd (l + 1) (getIndex nX nY nZ dimX dimY) mb
          else layerBwd3 rest (l + 1) s nX nY nZ mb
  | .fc .. :: _, _, _, _, _, _, _ => 0
  | .softmax .. :: _, _, _, _, _, _, _ => 0

/-- `ConvLayer::backPropogate` (`Network.hpp` lines 577-586, 694-703):
every neuron `(x, y, fm)` reads its error component from the successor —
through the flattened index when the successor is 1-D, through the 3-D
`getBwdError` otherwise — and multiplies by the activation derivative. -/
def convBackPropogate (actDeriv : ℚ → ℚ) (cfgs : List LayerCfg)
    (l kx ky iX iY nFM mb : Nat) (s : NetSt) : NetSt :=
  let dimX := iX - kx + 1
  let dimY := iY - ky + 1
  { s with
    err := maskW s.err l mb (dimX * dimY * nFM) fun n =>
      let x := getX n dimX
      let y := getY n dimX dimY
      let fm := getZ n dimX dimY
      let e := match cfgs.get? (l + 1) with
        | some next =>
            if next.numDims = 1 then s.bwd (l + 1) (getIndex x y fm dimX dimY) mb
            else layerBwd3 (cfgs.drop (l + 1)) (l + 1) s x y fm mb
        | none => 0
      e * actDeriv (s.wIn l n mb) }

/-- `ConvLayer::calcBwdError` (`Network.hpp` lines 669-692): for every
input-volume voxel, slot `mb` of the buffer receives the sum over feature
maps and in-range kernel offsets of `weight[fm][a][b][z] * error`. -/
def convCalcBwdError (l kx ky kz iX iY iZ nFM mb : Nat) (s : NetSt) : NetSt :=
  let dimX := iX - kx + 1
  let dimY := iY - ky + 1
  { s with
    bwd := maskW s.bwd l mb (iX * iY * iZ) fun idx =>
      let x := getX idx iX
      let y := getY idx iX iY
      let z := getZ idx iX iY
      (List.range nFM).foldl (fun acc fm =>
        (List.range kx).foldl (fun acc2 a =>
          (List.range ky).foldl (fun acc3 b =>
            if a ≤ x ∧ b ≤ y ∧ x - a < dimX ∧ y - b < dimY then
              acc3 + s.wt l (((fm * kx + a) * ky + b) * kz + z)
                * s.err l (getIndex (x - a) (y - b) fm dimX dimY) mb
            else acc3) acc2) acc) 0 }

/-- `InputLayer::setImage` (`Network.hpp` lines 126-131): pixel `i` of the
image is stored into the activation slot `mb` of neuron
`(i % imageX, i / imageX)`, i.e. flat code `i`. -/
def inputSetImage (inputSize : Nat) (image : Nat → ℚ) (mb : Nat) (s : NetSt) : NetSt :=
  { s with inputAct := maskW2 s.inputAct mb inputSize image }

/-- Dispatch of `layers[l]->feedForward(mb)` on the layer kind. -/
def layerFeedForward (expFn : ℚ → ℚ) (cfgs : List LayerCfg)
    (imageX inputSize : Nat) (l : Nat) (cfg : LayerCfg) (mb : Nat)
    (s : NetSt) : NetSt :=
  match cfg with
  | .fc size _ actFn _ =>
      fcFeedForward actFn l size (predSizeOf cfgs inputSize l) mb s
  | .softmax size _ _ _ =>
      softmaxFeedForward expFn l size (predSizeOf cfgs inputSize l) mb s
  | .conv kx ky kz iX iY _ nFM actFn _ =>
      convFeedForward actFn cfgs imageX l kx ky kz iX iY nFM mb s
  | .pool pX pY iX iY iZ =>
      poolFeedForward cfgs imageX l pX pY iX iY iZ mb s

/-- `Network::feedForward` (`Network.hpp` lines 936-940) from layer `l` on:
every layer in chain order runs its forward pass for slot `mb`. -/
def feedForwardFrom (expFn : ℚ → ℚ) (cfgs : List LayerCfg)
    (imageX inputSize : Nat) (mb : Nat) :
    Nat → List LayerCfg → NetSt → NetSt
  | _, [], s => s
  | l, cfg :: rest, s =>
      feedForwardFrom expFn cfgs imageX inputSize mb (l + 1) rest
        (layerFeedForward expFn cfgs imageX inputSize l cfg mb s)

/-- Dispatch of `layers[l]->backPropogate(mb)` on the layer kind: pool
layers skip, and the softmax entry (whose neuron-level `backPropogate` is
`UNREACHABLE()`) is never invoked by the orchestrator's loop. -/
def layerBackPropogate (cfgs : List LayerCfg) (l mb : Nat) (s : NetSt) : NetSt :=
  match cfgs.get? l with
  | some (.fc size _ _ actDeriv) => fcBackPropogate actDeriv cfgs l size mb s
  | some (.conv kx ky _ iX iY _ nFM _ actDeriv) =>
      convBackPropogate actDeriv cfgs l kx ky iX iY nFM mb s
  | some (.pool ..) => s
  | some (.softmax ..) => s
  | none => s

/-- Dispatch of `layers[l]->calcBwdError(mb)` on the layer kind; pool
layers skip. -/
def layerCalcBwdError (cfgs : List LayerCfg) (inputSize l mb : Nat)
    (s : NetSt) : NetSt :=
  match cfgs.get? l with
  | some (.fc size _ _ _) =>
      fcCalcBwdError l size (predSizeOf cfgs inputSize l) mb s
  | some (.softmax size _ _ _) =>
      fcCalcBwdError l size (predSizeOf cfgs inputSize l) mb s
  | some (.conv kx ky kz iX iY iZ nFM _ _) =>
      convCalcBwdError l kx ky kz iX iY iZ nFM mb s
  | some (.pool ..) => s
  | none => s

/-- `softMaxLayer->computeOutputError(label, mb)`: the orchestrator invokes
it on the final (softmax) layer only. -/
def layerComputeOutputError (cfgs : List LayerCfg) (l label mb : Nat)
    (s : NetSt) : NetSt :=
  match cfgs.get? l with
  | some (.softmax size _ _ costDelta) =>
      softmaxComputeOutputError costDelta l size label mb s
  | _ => s

/-- Indices `layers.size()-2, ..., 1` of the orchestrator's descending
backward loop (`Network.hpp` line 952). -/
def backIdxList (numLayers : Nat) : List Nat :=
  ((List.range (numLayers - 1)).drop 1).reverse

/-- `Network::backPropogate(image, label, mb)` (`Network.hpp` lines
943-957): set the input image into slot `mb`, feed forward through every
layer, compute the output error and the output layer's backward-error
buffer, walk the hidden layers from last to second running
`backPropogate` then `calcBwdError`, and finally run `backPropogate` on
the first layer. -/
def netBackPropogate (expFn : ℚ → ℚ) (cfgs : List LayerCfg)
    (imageX inputSize : Nat) (image : Nat → ℚ) (label mb : Nat)
    (s : NetSt) : NetSt :=
  let lastIdx := cfgs.length - 1
  let s1 := inputSetImage inputSize image mb s
  let s2 := feedForwardFrom expFn cfgs imageX inputSize mb 0 cfgs s1
  let s3 := layerComputeOutputError cfgs lastIdx label mb s2
  let s4 := layerCalcBwdError cfgs inputSize lastIdx mb s3
  let s5 := (backIdxList cfgs.length).foldl
    (fun st i => layerCalcBwdError cfgs inputSize i mb
      (layerBackPropogate cfgs i mb st)) s4
  layerBackPropogate cfgs 0 mb s5

/-- Agreement of two chain states outside sample slot `mb`: every
weighted-input, activation and error entry of every neuron at any other
slot, every other slot's row of every backward-error buffer, every input
activation at any other slot, and all weights and biases coincide. -/
def SlotAgrees (mb : Nat) (s s' : NetSt) : Prop :=
  (∀ i m, m ≠ mb → s'.inputAct i m = s.inputAct i m)
  ∧ (∀ l n m, m ≠ mb → s'.wIn l n m = s.wIn l n m)
  ∧ (∀ l n m, m ≠ mb → s'.act l n m = s.act l n m)
  ∧ (∀ l n m, m ≠ mb → s'.err l n m = s.err l n m)
  ∧ (∀ l j m, m ≠ mb → s'.bwd l j m = s.bwd l j m)
  ∧ s'.wt = s.wt ∧ s'.bias = s.bias

/-- Helper: the accumulation loops of `endBatch` compute a starting value
plus a `Finset.range` sum. -/
theorem foldl_add_eq_sum (f : Nat → ℚ) (init : ℚ) (n : Nat) :
    (List.range n).foldl (fun acc j => acc + f j) init
      = init + ∑ j in Finset.range n, f j := by
  induction n with
  | zero => simp
  | succ n ih =>
    rw [List.range_succ, List.foldl_append, ih, Finset.sum_range_succ]
    simp [add_assoc]

/-- Helper: the weight-drawing loop advances the engine by one state step
per draw. -/
theorem drawWeights_state (dist : Nat → ℚ × Nat) (scale : ℚ) (n : Nat) :
    ∀ st, (drawWeights dist scale n st).2 = (engineNext dist)^[n] st := by
  induction n with
  | zero => intro st; rfl
  | succ n ih =>
    intro st
    rw [Function.iterate_succ_apply]
    simpa [drawWeights, engineNext] using ih (dist st).2

/-- Helper: one fully-connected neuron's initialisation consumes
`numInputs + 1` draws from the shared engine. -/
theorem fcNeuronInitHpp_state (dist : Nat → ℚ × Nat) (scale : ℚ) (nin st : Nat) :
    (fcNeuronInitHpp dist scale nin st).2 = (engineNext dist)^[nin + 1] st := by
  rw [Function.iterate_succ_apply']
  simp [fcNeuronInitHpp, engineNext, drawWeights_state]

/-- Helper: a fully-connected layer's initialisation consumes
`size * (numInputs + 1)` draws, each neuron continuing where the previous
one left the engine. -/
theorem fcLayerInitHpp_state (dist : Nat → ℚ × Nat) (scale : ℚ) (nin sz : Nat) :
    ∀ st, (fcLayerInitHpp dist scale nin sz st).2
      = (engineNext dist)^[sz * (nin + 1)] st := by
  induction sz with
  | zero => intro st; simp [fcLayerInitHpp]
  | succ k ih =>
    intro st
    have harith : (k + 1) * (nin + 1) = k * (nin + 1) + (nin + 1) := by ring
    rw [harith, Function.iterate_add_apply]
    simpa [fcLayerInitHpp, fcNeuronInitHpp_state] using
      ih (fcNeuronInitHpp dist scale nin st).2

/-- Helper: the whole chain's initialisation threads the single engine
sequentially, consuming `networkInitDraws topo` draws in total. -/
theorem networkInitHpp_state (dist : Nat → ℚ × Nat) (sqrtFn : Nat → ℚ)
    (topo : List (Nat × Nat)) :
    ∀ st, (networkInitHpp dist sqrtFn topo st).2
      = (engineNext dist)^[networkInitDraws topo] st := by
  induction topo with
  | nil => intro st; simp [networkInitHpp, networkInitDraws]
  | cons p rest ih =>
    intro st
    obtain ⟨sz, nin⟩ := p
    have harith : networkInitDraws ((sz, nin) :: rest)
        = networkInitDraws rest + sz * (nin + 1) := by
      simp [networkInitDraws]; ring
    rw [harith, Function.iterate_add_apply,
      ← fcLayerInitHpp_state dist (sqrtFn nin) nin sz st]
    simpa [networkInitHpp] using ih (fcLayerInitHpp dist (sqrtFn nin) nin sz st).2

/-- C1: the claim states the stored max-pool activation equals the maximum
of the pool window.  In the code the running-max variable `weightedInput`
is never updated inside the loop (and is initialised to
`std::numeric_limits<float>::min() = 2^-126`, a small positive value, not
the lowest float), so the stored activation is
`max(2^-126, last window element)`.  Evaluated on a 2x2 window holding
`(5, 0, 0, 0)` the layer stores `2^-126` although the window maximum is
`5`; on a window of `-1`s it stores `2^-126`, which exceeds the window
maximum `-1`, falsifying both halves of the claim. -/
theorem maxPool_feedForward_not_window_max :
    maxPoolActivation 2 2 (fun nX nY => if nX = 0 ∧ nY = 0 then 5 else 0) 0 0 0 = fltMin
    ∧ poolWindowMax 2 2 (fun nX nY => if nX = 0 ∧ nY = 0 then 5 else 0) 0 0 = 5
    ∧ fltMin ≠ 5
    ∧ maxPoolActivation 2 2 (fun _ _ => -1) 0 0 0 = fltMin
    ∧ poolWindowMax 2 2 (fun _ _ => -1) 0 0 = -1
    ∧ -1 < fltMin := by
  refine ⟨?_, ?_, ?_, ?_, ?_, ?_⟩ <;>
    norm_num [maxPoolActivation, poolWindowMax, poolWindow, fltMin,
      List.range_succ, max_def]

/-- C2: `FullyConnectedNeuron::endBatch` updates each weight to
`(1 - learningRate*(lambda/numTrainingImages)) * weight` minus
`(learningRate/mbSize)` times the mini-batch sum of predecessor activation
times error — the decay factor multiplies the weight before the averaged
gradient is subtracted — and the bias to bias minus `(learningRate/mbSize)`
times the mini-batch error sum, with no decay factor. -/
theorem fc_endBatch_update (learningRate lambda : ℚ) (mbSize numTrainingImages : Nat)
    (actI errJ : Nat → ℚ) (w b : ℚ) :
    fcEndBatchWeight learningRate lambda mbSize numTrainingImages actI errJ w
      = (1 - learningRate * (lambda / (numTrainingImages : ℚ))) * w
        - (learningRate / (mbSize : ℚ)) * ∑ j in Finset.range mbSize, actI j * errJ j
    ∧ fcEndBatchBias learningRate mbSize errJ b
      = b - (learningRate / (mbSize : ℚ)) * ∑ j in Finset.range mbSize, errJ j := by
  constructor
  · simp only [fcEndBatchWeight]
    rw [foldl_add_eq_sum]
    ring
  · simp only [fcEndBatchBias]
    rw [foldl_add_eq_sum]
    ring

/-- C3: the claim states `computeOutputCost` returns the per-sample sum of
per-neuron costs and is not constantly zero.  The layer loop calls each
neuron's `computeOutputCost` but discards the result and returns the
never-incremented local `outputCost = 0.0f`: with one neuron of
activation `1` and target `0` under the quadratic cost the function
returns `0` although the per-neuron cost sum is `1/2`.
`sumSquaredWeights` does behave as claimed (last conjunct). -/
theorem computeOutputCost_returns_zero :
    computeOutputCost quadCost [1] 0 = 0
    ∧ perSampleCostSum quadCost [1] 0 = 1 / 2
    ∧ ((1 : ℚ) / 2) ≠ 0
    ∧ sumSquaredWeights [3] = 9 := by
  refine ⟨rfl, ?_, by norm_num, ?_⟩ <;>
    norm_num [perSampleCostSum, quadCost, sumSquaredWeights]

/-- C4: with a 2x2 pool and a 3-D successor whose buffer at `(a, b, c)`
holds `a + b + c`, the query at input coordinate `(1, 1, 0)` must read the
downsampled coordinate `(0, 0, 0)`, value `0`.  The `Network.hpp` version
does; the `main4.cpp` version reads the original `(1, 1, 0)`, value `2`. -/
theorem maxPool_getBwdError_m4_not_downsampled :
    maxPoolGetBwdError 2 2 12 12 3 (fun _ => 0) (fun a b c => (a : ℚ) + b + c) 1 1 0 = 0
    ∧ maxPoolGetBwdErrorM4 2 2 12 12 3 (fun _ => 0) (fun a b c => (a : ℚ) + b + c) 1 1 0 = 2
    ∧ ((2 : ℚ)) ≠ 0 := by
  refine ⟨?_, ?_, by norm_num⟩ <;> norm_num [maxPoolGetBwdError, maxPoolGetBwdErrorM4]

/-- C5 counterexample: wiring a predecessor of size 3 to a fully-connected
layer declared with `prevSize = 4` completes silently even in a debug
build — `FullyConnectedLayer::setInputs` contains no size check. -/
theorem fc_setInputs_silent_mismatch :
    fcSetInputs 4 3 BuildMode.debug = some () ∧ (4 : Nat) ≠ 3 := ⟨rfl, by decide⟩

/-- C5 (amended): only the convolutional and max-pooling layers validate
the predecessor's `size()` during wiring (an `assert`, fatal in a debug
build, if and only if the sizes disagree); `FullyConnectedLayer::setInputs`
and `SoftMaxLayer::setInputs` perform no check and always complete. -/
theorem setInputs_validation (predSize iX iY iZ pX pY nN prevSize : Nat) :
    (convSetInputs predSize iX iY iZ .debug = some () ↔ predSize = iX * iY * iZ)
    ∧ (maxPoolSetInputs predSize pX pY nN .debug = some () ↔ predSize = pX * pY * nN)
    ∧ fcSetInputs prevSize predSize .debug = some ()
    ∧ softMaxSetInputs prevSize predSize .debug = some () := by
  refine ⟨?_, ?_, rfl, rfl⟩ <;>
    · constructor
      · intro h
        by_contra hne
        simp [convSetInputs, maxPoolSetInputs, assertCheck, hne] at h
      · intro h
        simp [convSetInputs, maxPoolSetInputs, assertCheck, h]

/-- C6 counterexample: under `NDEBUG` (a release build) `UNREACHABLE()` is
`__builtin_unreachable()`, so invoking `InputLayer::feedForward` is
undefined behaviour rather than a fatal halt, falsifying "always halts
... never continues ... with undefined behaviour". -/
theorem unreachable_release_is_undefined :
    inputLayerFeedForward BuildMode.release = CallResult.undefBehaviour
    ∧ CallResult.undefBehaviour ≠ CallResult.halted := ⟨rfl, by decide⟩

/-- C6 (amended): in a debug build every unsupported layer operation halts
fatally (`__builtin_trap` via `UNREACHABLE()` in `Network.hpp`, a failed
`assert` via `DO_NOT_USE` in `main4.cpp`); under `NDEBUG` the
`UNREACHABLE()`-based operations are undefined behaviour while the
`DO_NOT_USE`-based ones continue silently, returning a default value. -/
theorem unsupported_ops_fail_by_build :
    (inputLayerFeedForward .debug = .halted
     ∧ inputLayerBackPropogate .debug = .halted
     ∧ inputLayerEndBatch .debug = .halted
     ∧ inputLayerGetBwdError .debug = .halted
     ∧ softMaxSetOutputs .debug = .halted
     ∧ inputLayerFeedForwardM4 .debug = .halted
     ∧ inputLayerBackPropogateM4 .debug = .halted
     ∧ inputLayerGetBwdErrorM4 .debug = .halted)
    ∧ (inputLayerFeedForward .release = .undefBehaviour
       ∧ inputLayerBackPropogate .release = .undefBehaviour
       ∧ inputLayerEndBatch .release = .undefBehaviour
       ∧ inputLayerGetBwdError .release = .undefBehaviour
       ∧ softMaxSetOutputs .release = .undefBehaviour
       ∧ inputLayerFeedForwardM4 .release = .silentReturn
       ∧ inputLayerBackPropogateM4 .release = .silentReturn
       ∧ inputLayerGetBwdErrorM4 .release = .silentReturn) := by
  decide

/-- C7: in `main4.cpp` the convolutional layer constructed by `main`
(`ConvLayer(5, 5, 1, 28, 28, 1, 1)`, one feature map) has a bias array of
zero extents — `bias` is missing from the constructor initialiser list —
yet `initialiseDefaultWeights` writes `bias[0]`, an out-of-bounds store.
The `Network.hpp` constructor allocates `boost::extents[numFMs]`, within
which the same writes stay. -/
theorem conv_bias_write_out_of_range :
    0 ∈ convInitBiasWrites 1
    ∧ convBiasExtentM4 1 = 0
    ∧ ((convInitBiasWrites 1).all fun fm => decide (fm < convBiasExtent 1)) = true := by
  decide

/-- C8 counterexample: `main4.cpp`'s weight initialisation draws from a
function-local static engine seeded with `std::time(nullptr)`.  Two runs
identical in everything but the wall clock (states 0 and 1 here, with the
draw modelled as returning the state) produce different weights, so the
draws do not depend only on a fixed seed and the topology. -/
theorem m4_init_depends_on_clock :
    (fcNeuronInitM4 (fun st => ((st : ℚ), st + 1)) 1 1 0).1
      ≠ (fcNeuronInitM4 (fun st => ((st : ℚ), st + 1)) 1 1 1).1 := by
  norm_num [fcNeuronInitM4, drawWeights]

/-- C8 (amended): in the templated implementation, construction seeds the
single `std::default_random_engine` from `params.seed` and threads it
through every layer in chain order, so two constructions with the same
seed and topology produce identical weights and biases, and the whole
network consumes exactly `networkInitDraws topo` sequential draws of that
one generator. -/
theorem network_init_seed_deterministic (dist : Nat → ℚ × Nat) (sqrtFn : Nat → ℚ)
    (topo : List (Nat × Nat)) (seed seed2 : Nat) (h : seed = seed2) :
    networkInitHpp dist sqrtFn topo seed = networkInitHpp dist sqrtFn topo seed2
    ∧ (networkInitHpp dist sqrtFn topo seed).2
        = (engineNext dist)^[networkInitDraws topo] seed :=
  ⟨by rw [h], networkInitHpp_state dist sqrtFn topo seed⟩

/-- C8 witness: the deterministic-initialisation theorem applied to a
concrete one-layer topology and seed. -/
theorem network_init_seed_deterministic_witness :
    (3 = 3)
    ∧ (networkInitHpp (fun st => ((st : ℚ), st + 1)) (fun _ => 1) [(1, 1)] 3
        = networkInitHpp (fun st => ((st : ℚ), st + 1)) (fun _ => 1) [(1, 1)] 3
      ∧ (networkInitHpp (fun st => ((st : ℚ), st + 1)) (fun _ => 1) [(1, 1)] 3).2
          = (engineNext (fun st => ((st : ℚ), st + 1)))^[networkInitDraws [(1, 1)]] 3) :=
  ⟨rfl, network_init_seed_deterministic (fun st => ((st : ℚ), st + 1)) (fun _ => 1)
    [(1, 1)] 3 3 rfl⟩

/-- C9 counterexample: `W = 3`, `H = 2^31` are representable `unsigned`
dimensions, but their product overflows 32-bit arithmetic
(`3 * 2^31 mod 2^32 = 2^31`), so `getZ` of `i = 2^32 - 1` yields `1`
while the claimed `i / (W*H)` is `0` (the claim holds only below the
overflow threshold, see the amended theorem). -/
theorem getZ_overflow_counterexample :
    getZ 4294967295 3 2147483648 ≠ 4294967295 / (3 * 2147483648) := by decide

/-- C9 (amended): for positive dimensions whose product `W*H*D` fits in
`unsigned` (is below `2^32`), the conversion helpers compute
`i mod W`, `(i div W) mod H`, `i div (W*H)`, the composite `getIndex`
of them returns `i` for every `i < W*H*D`, and conversely `getIndex` of
any in-range `(x, y, z)` maps back to the same coordinates. -/
theorem coord_conversion_roundtrip (W H D i : Nat) (hW : 0 < W) (hH : 0 < H)
    (hD : 0 < D) (hi : i < W * H * D) (hfit : W * H * D < U32) :
    getX i W = i % W
    ∧ getY i W H = (i / W) % H
    ∧ getZ i W H = i / (W * H)
    ∧ getIndex (getX i W) (getY i W H) (getZ i W H) W H = i
    ∧ ∀ x y z : Nat, x < W → y < H → z < D →
        getX (getIndex x y z W H) W = x
        ∧ getY (getIndex x y z W H) W H = y
        ∧ getZ (getIndex x y z W H) W H = z := by
  have hWH : 0 < W * H := Nat.mul_pos hW hH
  have hWH_le : W * H ≤ W * H * D := Nat.le_mul_of_pos_right _ hD
  have hWH_lt : W * H < U32 := lt_of_le_of_lt hWH_le hfit
  have hiU : i < U32 := lt_trans hi hfit
  have hplain : ∀ x y z : Nat, W * H * z + W * y + x < U32 →
      getIndex x y z W H = W * H * z + W * y + x := by
    intro x y z hlt
    have hA : W * H * z < U32 := lt_of_le_of_lt (by omega) hlt
    have hB : W * y < U32 := lt_of_le_of_lt (by omega) hlt
    have hAB : W * H * z + W * y < U32 := lt_of_le_of_lt (by omega) hlt
    unfold getIndex
    rw [Nat.mod_eq_of_lt hWH_lt, Nat.mod_eq_of_lt hA, Nat.mod_eq_of_lt hB,
      Nat.mod_eq_of_lt hAB, Nat.mod_eq_of_lt hlt]
  refine ⟨rfl, rfl, ?_, ?_, ?_⟩
  · unfold getZ
    rw [Nat.mod_eq_of_lt hWH_lt]
  · have h1 : i % (W * H) % W = i % W := Nat.mod_mod_of_dvd i ⟨H, rfl⟩
    have h2 : i % (W * H) / W = i / W % H := Nat.mod_mul_right_div_self i W H
    have key1 : W * (i / W % H) + i % W = i % (W * H) := by
      have := Nat.div_add_mod (i % (W * H)) W
      rw [h1, h2] at this
      exact this
    have key2 : W * H * (i / (W * H)) + i % (W * H) = i := Nat.div_add_mod i (W * H)
    have hgz : getZ i W H = i / (W * H) := by
      unfold getZ; rw [Nat.mod_eq_of_lt hWH_lt]
    show getIndex (i % W) (i / W % H) (getZ i W H) W H = i
    rw [hgz]
    have hrem : i % (W * H) ≤ i := Nat.mod_le i _
    have hlt : W * H * (i / (W * H)) + W * (i / W % H) + i % W < U32 := by omega
    rw [hplain _ _ _ hlt]
    omega
  · intro x y z hx hy hz
    have hyx : x + W * y < W * H := by
      calc x + W * y < W + W * y := Nat.add_lt_add_right hx _
        _ = W * (y + 1) := by ring
        _ ≤ W * H := Nat.mul_le_mul le_rfl hy
    have hE : W * H * z + W * y + x < W * H * D := by
      calc W * H * z + W * y + x < W * H * z + (x + W * y) + 1 := by omega
        _ ≤ W * H * z + W * H := by omega
        _ = W * H * (z + 1) := by ring
        _ ≤ W * H * D := Nat.mul_le_mul le_rfl hz
    have hEU : W * H * z + W * y + x < U32 := lt_trans hE hfit
    rw [hplain x y z hEU]
    refine ⟨?_, ?_, ?_⟩
    · show (W * H * z + W * y + x) % W = x
      have harr : W * H * z + W * y + x = x + W * (y + H * z) := by ring
      rw [harr, Nat.add_mul_mod_self_left, Nat.mod_eq_of_lt hx]
    · show (W * H * z + W * y + x) / W % H = y
      have harr : W * H * z + W * y + x = x + W * (y + H * z) := by ring
      rw [harr, Nat.add_mul_div_left _ _ hW, Nat.div_eq_of_lt hx,
        Nat.zero_add, Nat.add_mul_mod_self_left, Nat.mod_eq_of_lt hy]
    · show (W * H * z + W * y + x) / (W * H % U32) = z
      rw [Nat.mod_eq_of_lt hWH_lt]
      have harr : W * H * z + W * y + x = (x + W * y) + W * H * z := by ring
      rw [harr, Nat.add_mul_div_left _ _ hWH, Nat.div_eq_of_lt hyx, Nat.zero_add]

/-- C9 witness: the round-trip theorem applied at `(W, H, D) = (2, 3, 4)`
and `i = 17`. -/
theorem coord_conversion_roundtrip_witness :
    (0 < 2 ∧ 0 < 3 ∧ 0 < 4 ∧ 17 < 2 * 3 * 4 ∧ 2 * 3 * 4 < U32)
    ∧ (getX 17 2 = 17 % 2
       ∧ getY 17 2 3 = 17 / 2 % 3
       ∧ getZ 17 2 3 = 17 / (2 * 3)
       ∧ getIndex (getX 17 2) (getY 17 2 3) (getZ 17 2 3) 2 3 = 17
       ∧ ∀ x y z : Nat, x < 2 → y < 3 → z < 4 →
           getX (getIndex x y z 2 3) 2 = x
           ∧ getY (getIndex x y z 2 3) 2 3 = y
           ∧ getZ (getIndex x y z 2 3) 2 3 = z) :=
  ⟨⟨by decide, by decide, by decide, by decide, by decide⟩,
    coord_conversion_roundtrip 2 3 4 17 (by decide) (by decide) (by decide)
      (by decide) (by decide)⟩

theorem slotAgrees_refl (mb : Nat) (s : NetSt) : SlotAgrees mb s s :=
  ⟨fun _ _ _ => rfl, fun _ _ _ _ => rfl, fun _ _ _ _ => rfl, fun _ _ _ _ => rfl,
   fun _ _ _ _ => rfl, rfl, rfl⟩

theorem slotAgrees_trans {mb : Nat} {s1 s2 s3 : NetSt}
    (h12 : SlotAgrees mb s1 s2) (h23 : SlotAgrees mb s2 s3) :
    SlotAgrees mb s1 s3 := by
  obtain ⟨a1, b1, c1, d1, e1, f1, g1⟩ := h12
  obtain ⟨a2, b2, c2, d2, e2, f2, g2⟩ := h23
  exact ⟨fun i m h => (a2 i m h).trans (a1 i m h),
    fun l n m h => (b2 l n m h).trans (b1 l n m h),
    fun l n m h => (c2 l n m h).trans (c1 l n m h),
    fun l n m h => (d2 l n m h).trans (d1 l n m h),
    fun l j m h => (e2 l j m h).trans (e1 l j m h),
    f2.trans f1, g2.trans g1⟩

theorem maskW_ne (old : Nat → Nat → Nat → ℚ) (l mb bound : Nat) (v : Nat → ℚ)
    (l' n m : Nat) (h : m ≠ mb) : maskW old l mb bound v l' n m = old l' n m := by
  simp [maskW, h]

theorem maskW2_ne (old : Nat → Nat → ℚ) (mb bound : Nat) (v : Nat → ℚ)
    (i m : Nat) (h : m ≠ mb) : maskW2 old mb bound v i m = old i m := by
  simp [maskW2, h]

theorem inputSetImage_frame (inputSize : Nat) (image : Nat → ℚ) (mb : Nat)
    (s : NetSt) : SlotAgrees mb s (inputSetImage inputSize image mb s) := by
  refine ⟨?_, fun _ _ _ _ => rfl, fun _ _ _ _ => rfl, fun _ _ _ _ => rfl,
    fun _ _ _ _ => rfl, rfl, rfl⟩
  intro i m h
  simp [inputSetImage, maskW2, h]

theorem fcFeedForward_frame (actFn : ℚ → ℚ) (l size prevSize mb : Nat)
    (s : NetSt) : SlotAgrees mb s (fcFeedForward actFn l size prevSize mb s) := by
  refine ⟨fun _ _ _ => rfl, ?_, ?_, fun _ _ _ _ => rfl, fun _ _ _ _ => rfl, rfl, rfl⟩ <;>
    · intro l' n m h
      simp [fcFeedForward, maskW, h]

theorem softmaxFeedForward_frame (expFn : ℚ → ℚ) (l size prevSize mb : Nat)
    (s : NetSt) : SlotAgrees mb s (softmaxFeedForward expFn l size prevSize mb s) := by
  refine ⟨fun _ _ _ => rfl, ?_, ?_, fun _ _ _ _ => rfl, fun _ _ _ _ => rfl, rfl, rfl⟩ <;>
    · intro l' n m h
      simp [softmaxFeedForward, maskW, h]

theorem convFeedForward_frame (actFn : ℚ → ℚ) (cfgs : List LayerCfg) (imageX : Nat)
    (l kx ky kz iX iY nFM mb : Nat) (s : NetSt) :
    SlotAgrees mb s (convFeedForward actFn cfgs imageX l kx ky kz iX iY nFM mb s) := by
  refine ⟨fun _ _ _ => rfl, ?_, ?_, fun _ _ _ _ => rfl, fun _ _ _ _ => rfl, rfl, rfl⟩ <;>
    · intro l' n m h
      simp [convFeedForward, maskW, h]

theorem poolFeedForward_frame (cfgs : List LayerCfg) (imageX : Nat)
    (l pX pY iX iY iZ mb : Nat) (s : NetSt) :
    SlotAgrees mb s (poolFeedForward cfgs imageX l pX pY iX iY iZ mb s) := by
  refine ⟨fun _ _ _ => rfl, fun _ _ _ _ => rfl, ?_, fun _ _ _ _ => rfl,
    fun _ _ _ _ => rfl, rfl, rfl⟩
  intro l' n m h
  simp [poolFeedForward, maskW, h]

theorem softmaxComputeOutputError_frame (costDelta : ℚ → ℚ → ℚ → ℚ)
    (l size label mb : Nat) (s : NetSt) :
    SlotAgrees mb s (softmaxComputeOutputError costDelta l size label mb s) := by
  refine ⟨fun _ _ _ => rfl, fun _ _ _ _ => rfl, fun _ _ _ _ => rfl, ?_,
    fun _ _ _ _ => rfl, rfl, rfl⟩
  intro l' n m h
  simp [softmaxComputeOutputError, maskW, h]

theorem fcCalcBwdError_frame (l size prevSize mb : Nat) (s : NetSt) :
    SlotAgrees mb s (fcCalcBwdError l size prevSize mb s) := by
  refine ⟨fun _ _ _ => rfl, fun _ _ _ _ => rfl, fun _ _ _ _ => rfl,
    fun _ _ _ _ => rfl, ?_, rfl, rfl⟩
  intro l' j m h
  simp [fcCalcBwdError, maskW, h]

theorem fcBackPropogate_frame (actDeriv : ℚ → ℚ) (cfgs : List LayerCfg)
    (l size mb : Nat) (s : NetSt) :
    SlotAgrees mb s (fcBackPropogate actDeriv cfgs l size mb s) := by
  refine ⟨fun _ _ _ => rfl, fun _ _ _ _ => rfl, fun _ _ _ _ => rfl, ?_,
    fun _ _ _ _ => rfl, rfl, rfl⟩
  intro l' n m h
  simp [fcBackPropogate, maskW, h]

theorem convBackPropogate_frame (actDeriv : ℚ → ℚ) (cfgs : List LayerCfg)
    (l kx ky iX iY nFM mb : Nat) (s : NetSt) :
    SlotAgrees mb s (convBackPropogate actDeriv cfgs l kx ky iX iY nFM mb s) := by
  refine ⟨fun _ _ _ => rfl, fun _ _ _ _ => rfl, fun _ _ _ _ => rfl, ?_,
    fun _ _ _ _ => rfl, rfl, rfl⟩
  intro l' n m h
  simp [convBackPropogate, maskW, h]

theorem convCalcBwdError_frame (l kx ky kz iX iY iZ nFM mb : Nat) (s : NetSt) :
    SlotAgrees mb s (convCalcBwdError l kx ky kz iX iY iZ nFM mb s) := by
  refine ⟨fun _ _ _ => rfl, fun _ _ _ _ => rfl, fun _ _ _ _ => rfl,
    fun _ _ _ _ => rfl, ?_, rfl, rfl⟩
  intro l' j m h
  simp [convCalcBwdError, maskW, h]

theorem layerFeedForward_frame (expFn : ℚ → ℚ) (cfgs : List LayerCfg)
    (imageX inputSize l : Nat) (cfg : LayerCfg) (mb : Nat) (s : NetSt) :
    SlotAgrees mb s (layerFeedForward expFn cfgs imageX inputSize l cfg mb s) := by
  cases cfg with
  | fc size prevSize actFn actDeriv => exact fcFeedForward_frame _ _ _ _ _ _
  | softmax size prevSize costFn costDelta => exact softmaxFeedForward_frame _ _ _ _ _ _
  | conv kx ky kz iX iY iZ nFM actFn actDeriv => exact convFeedForward_frame _ _ _ _ _ _ _ _ _ _ _ _
  | pool pX pY iX iY iZ => exact poolFeedForward_frame _ _ _ _ _ _ _ _ _ _

theorem feedForwardFrom_frame (expFn : ℚ → ℚ) (cfgs : List LayerCfg)
    (imageX inputSize mb : Nat) :
    ∀ (rest : List LayerCfg) (l : Nat) (s : NetSt),
      SlotAgrees mb s (feedForwardFrom expFn cfgs imageX inputSize mb l rest s) := by
  intro rest
  induction rest with
  | nil => intro l s; exact slotAgrees_refl mb s
  | cons cfg t ih =>
    intro l s
    exact slotAgrees_trans (layerFeedForward_frame expFn cfgs imageX inputSize l cfg mb s)
      (ih (l + 1) _)

theorem layerBackPropogate_frame (cfgs : List LayerCfg) (l mb : Nat) (s : NetSt) :
    SlotAgrees mb s (layerBackPropogate cfgs l mb s) := by
  unfold layerBackPropogate
  split
  · exact fcBackPropogate_frame _ _ _ _ _ _
  · exact convBackPropogate_frame _ _ _ _ _ _ _ _ _ _
  · exact slotAgrees_refl mb s
  · exact slotAgrees_refl mb s
  · exact slotAgrees_refl mb s

theorem layerCalcBwdError_frame (cfgs : List LayerCfg) (inputSize l mb : Nat)
    (s : NetSt) : SlotAgrees mb s (layerCalcBwdError cfgs inputSize l mb s) := by
  unfold layerCalcBwdError
  split
  · exact fcCalcBwdError_frame _ _ _ _ _
  · exact fcCalcBwdError_frame _ _ _ _ _
  · exact convCalcBwdError_frame _ _ _ _ _ _ _ _ _ _
  · exact slotAgrees_refl mb s
  · exact slotAgrees_refl mb s

theorem layerComputeOutputError_frame (cfgs : List LayerCfg) (l label mb : Nat)
    (s : NetSt) : SlotAgrees mb s (layerComputeOutputError cfgs l label mb s) := by
  unfold layerComputeOutputError
  split
  · exact softmaxComputeOutputError_frame _ _ _ _ _ _
  · exact slotAgrees_refl mb s

theorem backLoop_frame (cfgs : List LayerCfg) (inputSize mb : Nat) :
    ∀ (ids : List Nat) (s : NetSt),
      SlotAgrees mb s (ids.foldl
        (fun st i => layerCalcBwdError cfgs inputSize i mb
          (layerBackPropogate cfgs i mb st)) s) := by
  intro ids
  induction ids with
  | nil => intro s; exact slotAgrees_refl mb s
  | cons a t ih =>
    intro s
    refine slotAgrees_trans (slotAgrees_trans (layerBackPropogate_frame cfgs a mb s) ?_) (ih _)
    exact layerCalcBwdError_frame cfgs inputSize a mb _

/-- C10: a full backward pass for slot `mb` leaves every other slot of
every per-neuron scratch array, every other slot of every backward-error
buffer, every other slot of the input activations, and all weights and
biases unchanged. -/
theorem backward_pass_slot_frame (expFn : ℚ → ℚ) (cfgs : List LayerCfg)
    (imageX inputSize : Nat) (image : Nat → ℚ) (label mb : Nat) (s : NetSt) :
    SlotAgrees mb s (netBackPropogate expFn cfgs imageX inputSize image label mb s) := by
  unfold netBackPropogate
  refine slotAgrees_trans (inputSetImage_frame inputSize image mb s) ?_
  refine slotAgrees_trans (feedForwardFrom_frame expFn cfgs imageX inputSize mb cfgs 0 _) ?_
  refine slotAgrees_trans (layerComputeOutputError_frame cfgs (cfgs.length - 1) label mb _) ?_
  refine slotAgrees_trans (layerCalcBwdError_frame cfgs inputSize (cfgs.length - 1) mb _) ?_
  refine slotAgrees_trans (backLoop_frame cfgs inputSize mb (backIdxList cfgs.length) _) ?_
  exact layerBackPropogate_frame cfgs 0 mb _
